import Mathlib

/-!
Verification of the meeting-time-tracker core: a shallow embedding of the
agenda/session state machine (src/routes/index.tsx, src/routes/tracker.tsx),
the persistence layer (src/hooks/useMeetingState.ts), the elapsed-time
calculator and visibility reconciler (src/hooks/useTimeCalculations.ts) and
the delete-button gating (src/components/MeetingProgress.tsx).

Timestamps and elapsed milliseconds are modelled as `Int`, minute quantities
as `ℚ` (JavaScript numbers, exact arithmetic in the ranges of interest).
Optional fields are `Option`; JavaScript truthiness tests on them
(`if (item.startTime)`, `!item.actualMinutes`) are modelled faithfully:
`some 0` is falsy.
-/

/-- The AgendaItem record of src/routes/index.tsx / useMeetingState.ts. -/
structure AgendaItem where
  id : String
  name : String
  estimatedMinutes : ℚ
  actualMinutes : Option ℚ
  isActive : Bool
  startTime : Option Int
  elapsedTime : Int
deriving Repr, DecidableEq

/-- The Meeting record archived into the history. -/
structure Meeting where
  id : String
  date : String
  agendaItems : List AgendaItem
deriving Repr, DecidableEq

/-- JavaScript truthiness of an optional number: absent or 0 is falsy. -/
def qTruthy : Option ℚ → Bool
  | none => false
  | some q => q != 0

/-- JavaScript truthiness of an optional timestamp: absent or 0 is falsy. -/
def tTruthy : Option Int → Bool
  | none => false
  | some t => t != 0

/-- JavaScript Math.round: round half toward positive infinity. -/
def jsRound (q : ℚ) : Int := ⌊q + 1/2⌋

/-- JavaScript Array.prototype.findIndex, with -1 modelled as `none`. -/
def jsFindIndex {α : Type} (p : α → Bool) : List α → Option Nat
  | [] => none
  | x :: xs => if p x then some 0 else (jsFindIndex p xs).map (· + 1)

/-- Index-passing map, modelling `array.map((item, index) => ...)` with the
index of the head being `k`. -/
def mapIdxFrom {α : Type} (f : Nat → α → α) : Nat → List α → List α
  | _, [] => []
  | k, x :: xs => f k x :: mapIdxFrom f (k + 1) xs

/-- startMeeting (src/routes/index.tsx lines 94-111): when the list is
non-empty and the meeting is not running, set the running flag, find the
first item without a (truthy) actualMinutes and activate it with a fresh
startTime; all other items get isActive cleared and keep their startTime. -/
def startMeeting (now : Int) (items : List AgendaItem) (running : Bool) :
    List AgendaItem × Bool :=
  if 0 < items.length ∧ running = false then
    match jsFindIndex (fun it => !qTruthy it.actualMinutes) items with
    | some idx =>
        (mapIdxFrom (fun i it =>
          { it with
              isActive := i == idx
              startTime := if i == idx then some now else it.startTime }) 0 items,
         true)
    | none => (items, true)
  else (items, running)

/-- Per-item body of pauseMeeting (src/routes/index.tsx lines 113-127): an
active item with a truthy startTime banks its open interval and loses its
startTime (isActive is NOT touched on this branch); every other item gets
isActive set to false. -/
def pauseItem (now : Int) (it : AgendaItem) : AgendaItem :=
  match it.startTime with
  | some s =>
      if it.isActive && s != 0 then
        { it with elapsedTime := it.elapsedTime + (now - s), startTime := none }
      else { it with isActive := false }
  | none => { it with isActive := false }

/-- pauseMeeting: clear the global running flag and map pauseItem. -/
def pauseMeeting (now : Int) (items : List AgendaItem) :
    List AgendaItem × Bool :=
  (items.map (pauseItem now), false)

/-- The local `totalElapsed` of completeCurrentItem: banked time plus the
open interval if a truthy startTime exists. -/
def completeElapsed (now : Int) (it : AgendaItem) : Int :=
  match it.startTime with
  | some s => if s != 0 then it.elapsedTime + (now - s) else it.elapsedTime
  | none => it.elapsedTime

/-- Completion of the active item (src/routes/index.tsx lines 134-144):
record actualMinutes = Math.round(totalElapsed / 60000 * 10) / 10 and clear
isActive / startTime. -/
def completeItem (now : Int) (it : AgendaItem) : AgendaItem :=
  { it with
      isActive := false
      actualMinutes := some ((jsRound ((completeElapsed now it : ℚ) / 60000 * 10) : ℚ) / 10)
      startTime := none }

/-- completeCurrentItem (src/routes/index.tsx lines 129-156): locate the
first active item; complete it; if the meeting is running, the next item in
list order becomes active with a fresh startTime. -/
def completeCurrentItem (now : Int) (running : Bool) (items : List AgendaItem) :
    List AgendaItem :=
  match jsFindIndex (fun it => it.isActive) items with
  | none => items
  | some aIdx =>
      mapIdxFrom (fun i it =>
        if i = aIdx then completeItem now it
        else if i = aIdx + 1 ∧ running = true then
          { it with isActive := true, startTime := some now }
        else it) 0 items

/-- Per-item body of resetMeeting: back to Pending. -/
def resetItem (it : AgendaItem) : AgendaItem :=
  { it with
      isActive := false
      actualMinutes := none
      startTime := none
      elapsedTime := 0 }

/-- resetMeeting (src/routes/index.tsx lines 158-169). -/
def resetMeeting (items : List AgendaItem) : List AgendaItem × Bool :=
  (items.map resetItem, false)

/-- The fresh item built by the add-item handler (src/routes/index.tsx
lines 278-287): Pending, no timing data. -/
def newAgendaItem (idv namev : String) (est : ℚ) : AgendaItem :=
  { id := idv
    name := namev
    estimatedMinutes := est
    actualMinutes := none
    isActive := false
    startTime := none
    elapsedTime := 0 }

/-- addAgendaItem: append a fresh Pending item. -/
def addAgendaItem (idv namev : String) (est : ℚ) (items : List AgendaItem) :
    List AgendaItem :=
  items ++ [newAgendaItem idv namev est]

/-- editAgendaItem (src/routes/index.tsx lines 235-247): update only name
and estimatedMinutes of the item with the given id. -/
def editAgendaItem (idv newName : String) (newEst : ℚ)
    (items : List AgendaItem) : List AgendaItem :=
  items.map (fun it =>
    if it.id == idv then { it with name := newName, estimatedMinutes := newEst }
    else it)

/-- deleteAgendaItem (src/routes/index.tsx lines 231-233): keep the items
whose id differs; no precondition is checked here. -/
def deleteAgendaItem (idv : String) (items : List AgendaItem) :
    List AgendaItem :=
  items.filter (fun it => it.id != idv)

/-- Per-item body of loadMeeting (src/routes/tracker.tsx lines 159-167). -/
def loadItem (it : AgendaItem) : AgendaItem :=
  { it with
      isActive := false
      startTime := none
      elapsedTime := 0 }

/-- loadMeeting: load an archived meeting as the agenda, all timing cleared,
running flag off. -/
def loadMeeting (m : Meeting) : List AgendaItem × Bool :=
  (m.agendaItems.map loadItem, false)

/-- Per-item body of the session restore (src/hooks/useMeetingState.ts
lines 80-91): an active item with a truthy startTime gets the time since
that startTime added to elapsedTime and its startTime re-based to now;
every other item is returned unchanged. -/
def restoreItem (now : Int) (it : AgendaItem) : AgendaItem :=
  match it.startTime with
  | some s =>
      if it.isActive && s != 0 then
        { it with elapsedTime := it.elapsedTime + (now - s), startTime := some now }
      else it
  | none => it

/-- Session restore over the whole persisted list. -/
def restoreSession (now : Int) (items : List AgendaItem) : List AgendaItem :=
  items.map (restoreItem now)

/-- getCurrentElapsed (src/hooks/useTimeCalculations.ts lines 64-72). -/
def getCurrentElapsed (currentTime : Int) (it : AgendaItem) : Int :=
  match it.startTime with
  | some s =>
      if it.isActive && s != 0 then it.elapsedTime + (currentTime - s)
      else it.elapsedTime
  | none => it.elapsedTime

/-- totalElapsed (src/hooks/useTimeCalculations.ts lines 78-81): reduce over
the items, a truthy actualMinutes contributes actualMinutes * 60000,
anything else contributes getCurrentElapsed. -/
def totalElapsed (now : Int) (items : List AgendaItem) : ℚ :=
  items.foldl (fun sum it =>
    if qTruthy it.actualMinutes then sum + it.actualMinutes.getD 0 * 60000
    else sum + (getCurrentElapsed now it : ℚ)) 0

/-- Per-item contribution to totalElapsed, factored out of the reduce body. -/
def itemContribution (now : Int) (it : AgendaItem) : ℚ :=
  if qTruthy it.actualMinutes then it.actualMinutes.getD 0 * 60000
  else (getCurrentElapsed now it : ℚ)

/-- The claim's version of totalElapsed, following the spec words: a defined
actualMinutes (even 0) contributes actualMinutes * 60000. -/
def totalElapsedClaim (now : Int) (items : List AgendaItem) : ℚ :=
  (items.map (fun it =>
    match it.actualMinutes with
    | some m => m * 60000
    | none => (getCurrentElapsed now it : ℚ))).sum

/-- Hide branch of handleVisibilityChange (src/hooks/useTimeCalculations.ts
lines 106-120): bank the open interval and re-base startTime to now. -/
def hideItem (now : Int) (it : AgendaItem) : AgendaItem :=
  match it.startTime with
  | some s =>
      if it.isActive && s != 0 then
        { it with elapsedTime := it.elapsedTime + (now - s), startTime := some now }
      else it
  | none => it

/-- Show branch of handleVisibilityChange (lines 121-134): every active item
gets a fresh startTime; elapsedTime is not touched. -/
def showItem (now : Int) (it : AgendaItem) : AgendaItem :=
  if it.isActive then { it with startTime := some now } else it

/-- handleVisibilityChange: inert unless the meeting is running. -/
def handleVisibilityChange (hidden running : Bool) (now : Int)
    (items : List AgendaItem) : List AgendaItem :=
  if hidden && running then items.map (hideItem now)
  else if !hidden && running then items.map (showItem now)
  else items

/-- The accounted elapsed time of claim C8: banked elapsedTime plus the open
interval measured from the item's current startTime. -/
def accountedTime (now : Int) (it : AgendaItem) : Int :=
  match it.startTime with
  | some s => it.elapsedTime + (now - s)
  | none => it.elapsedTime

/-- The Meeting record built by saveMeeting: only the items with a truthy
actualMinutes are archived. -/
def mkMeeting (idv datev : String) (items : List AgendaItem) : Meeting :=
  { id := idv
    date := datev
    agendaItems := items.filter (fun it => qTruthy it.actualMinutes) }

/-- saveMeeting (src/hooks/useMeetingState.ts lines 175-195): effective only
when some item has a truthy actualMinutes; prepend the new meeting and keep
the 10 most recent. -/
def saveMeeting (idv datev : String) (items : List AgendaItem)
    (history : List Meeting) : List Meeting :=
  if 0 < items.length ∧ items.any (fun it => qTruthy it.actualMinutes) = true then
    (mkMeeting idv datev items :: history).take 10
  else history

/-- Delete-button gating of src/components/MeetingProgress.tsx lines
522-538: the button is disabled when the item is active, has elapsed time,
or is completed. -/
def deleteDisabled (it : AgendaItem) : Bool :=
  it.isActive || decide (0 < it.elapsedTime) || it.actualMinutes.isSome

/-- Delete as reachable through the UI: the disabled button never fires, an
enabled button calls deleteAgendaItem with the item's id. -/
def uiDeleteAgendaItem (i : Nat) (items : List AgendaItem) :
    List AgendaItem :=
  match items[i]? with
  | none => items
  | some it => if deleteDisabled it then items else deleteAgendaItem it.id items

/-- At most one item of the list is active. -/
def atMostOneActive (items : List AgendaItem) : Prop :=
  items.countP (fun it => it.isActive) ≤ 1

instance : DecidablePred atMostOneActive := fun items =>
  inferInstanceAs (Decidable (_ ≤ 1))

/-- Both implications of the spec §3 item invariant. -/
def itemInv (it : AgendaItem) : Prop :=
  (it.isActive = true → it.startTime.isSome = true ∧ it.actualMinutes = none) ∧
  (it.actualMinutes.isSome = true → it.isActive = false ∧ it.startTime = none)

instance (it : AgendaItem) : Decidable (itemInv it) :=
  inferInstanceAs (Decidable (And _ _))

/-- The part of the item invariant that does not mention an active item's
startTime. -/
def completedInv (it : AgendaItem) : Prop :=
  (it.isActive = true → it.actualMinutes = none) ∧
  (it.actualMinutes.isSome = true → it.isActive = false ∧ it.startTime = none)

instance (it : AgendaItem) : Decidable (completedInv it) :=
  inferInstanceAs (Decidable (And _ _))

/-- The part of the item invariant about an active item's startTime. -/
def activeHasStart (it : AgendaItem) : Prop :=
  it.isActive = true → it.startTime.isSome = true

instance (it : AgendaItem) : Decidable (activeHasStart it) :=
  inferInstanceAs (Decidable (_ → _))

def sampleActive : AgendaItem := ⟨"a", "alpha", 5, none, true, some 1000, 0⟩

def samplePending : AgendaItem := ⟨"b", "beta", 10, none, false, none, 0⟩

def sampleDone : AgendaItem := ⟨"c", "gamma", 5, some 5, false, none, 0⟩

def sampleMeetingRec : Meeting := ⟨"m1", "2021-01-01T00:00:00.000Z", [sampleDone]⟩

/-- Sequential saves into a history, folding saveMeeting: each element of
the list carries the generated id, date and the agenda items at save time. -/
def runSaves (saves : List (String × String × List AgendaItem))
    (history : List Meeting) : List Meeting :=
  saves.foldl (fun h sv => saveMeeting sv.1 sv.2.1 sv.2.2 h) history

def itemZero : AgendaItem := ⟨"z", "zeta", 1, some 0, false, none, 2000⟩

def cexVisItem : AgendaItem := ⟨"v", "vis", 5, none, true, some 1000, 0⟩

def sampleSaves : List (String × String × List AgendaItem) :=
  List.replicate 12 ("i", "d", [sampleDone])

theorem mapIdxFrom_getElem? {α : Type} (f : Nat → α → α) (l : List α)
    (k i : Nat) : (mapIdxFrom f k l)[i]? = (l[i]?).map (f (k + i)) := by
  induction l generalizing k i with
  | nil => simp [mapIdxFrom]
  | cons x xs ih =>
      cases i with
      | zero => simp [mapIdxFrom]
      | succ j =>
          have harith : k + 1 + j = k + (j + 1) := by omega
          simp [mapIdxFrom, List.getElem?_cons_succ, ih, harith]

theorem mapIdxFrom_length {α : Type} (f : Nat → α → α) (l : List α)
    (k : Nat) : (mapIdxFrom f k l).length = l.length := by
  induction l generalizing k with
  | nil => rfl
  | cons x xs ih => simp [mapIdxFrom, ih]

theorem mem_mapIdxFrom {α : Type} {f : Nat → α → α} {l : List α} {k : Nat}
    {y : α} (h : y ∈ mapIdxFrom f k l) :
    ∃ i x, l[i]? = some x ∧ y = f (k + i) x := by
  induction l generalizing k with
  | nil => simp [mapIdxFrom] at h
  | cons x xs ih =>
      rw [mapIdxFrom] at h
      rcases List.mem_cons.mp h with h0 | h1
      · exact ⟨0, x, by simp, by simpa using h0⟩
      · obtain ⟨i, z, hz, hy⟩ := ih h1
        exact ⟨i + 1, z, by simpa using hz,
          by simpa [Nat.add_assoc, Nat.add_comm 1 i] using hy⟩

theorem memOfGetElem? {α : Type} {l : List α} {i : Nat} {x : α}
    (h : l[i]? = some x) : x ∈ l :=
  List.mem_iff_getElem?.mpr ⟨i, h⟩

theorem jsFindIndex_eq_none_iff {α : Type} (p : α → Bool) (l : List α) :
    jsFindIndex p l = none ↔ ∀ x ∈ l, p x = false := by
  induction l with
  | nil => simp [jsFindIndex]
  | cons x xs ih =>
      by_cases hp : p x = true
      · simp [jsFindIndex, hp]
      · simp only [Bool.not_eq_true] at hp
        simp [jsFindIndex, hp, Option.map_eq_none', ih]

theorem jsFindIndex_some_spec {α : Type} {p : α → Bool} {l : List α}
    {i : Nat} (h : jsFindIndex p l = some i) :
    ∃ x, l[i]? = some x ∧ p x = true := by
  induction l generalizing i with
  | nil => simp [jsFindIndex] at h
  | cons x xs ih =>
      by_cases hp : p x = true
      · simp only [jsFindIndex, hp, if_true, Option.some.injEq] at h
        exact ⟨x, by simp [← h], hp⟩
      · simp only [Bool.not_eq_true] at hp
        simp only [jsFindIndex, hp, Bool.false_eq_true, if_false,
          Option.map_eq_some'] at h
        obtain ⟨j, hj, hji⟩ := h
        obtain ⟨z, hz, hpz⟩ := ih hj
        exact ⟨z, by simpa [← hji] using hz, hpz⟩

theorem countP_le_one_iff {α : Type} (p : α → Bool) (l : List α) :
    l.countP p ≤ 1 ↔
      ∀ (i j : Nat) (x y : α), l[i]? = some x → l[j]? = some y →
        p x = true → p y = true → i = j := by
  induction l with
  | nil =>
      constructor
      · intro _ i j x y hx
        simp at hx
      · intro _
        simp [List.countP, List.countP.go]
  | cons a l ih =>
      constructor
      · intro h i j x y hx hy hpx hpy
        rw [List.countP_cons] at h
        cases i with
        | zero =>
            cases j with
            | zero => rfl
            | succ j' =>
                exfalso
                simp only [List.getElem?_cons_zero, Option.some.injEq] at hx
                rw [List.getElem?_cons_succ] at hy
                have hpa : p a = true := by rw [hx]; exact hpx
                have hzero : l.countP p = 0 := by
                  rw [if_pos hpa] at h; omega
                have : p y = false := by
                  have := List.countP_eq_zero.mp hzero y (memOfGetElem? hy)
                  simpa using this
                rw [this] at hpy; exact Bool.false_ne_true hpy
        | succ i' =>
            cases j with
            | zero =>
                exfalso
                simp only [List.getElem?_cons_zero, Option.some.injEq] at hy
                rw [List.getElem?_cons_succ] at hx
                have hpa : p a = true := by rw [hy]; exact hpy
                have hzero : l.countP p = 0 := by
                  rw [if_pos hpa] at h; omega
                have : p x = false := by
                  have := List.countP_eq_zero.mp hzero x (memOfGetElem? hx)
                  simpa using this
                rw [this] at hpx; exact Bool.false_ne_true hpx
            | succ j' =>
                rw [List.getElem?_cons_succ] at hx hy
                have hle : l.countP p ≤ 1 := by
                  by_cases hpa : p a = true
                  · rw [if_pos hpa] at h; omega
                  · rw [if_neg hpa] at h; omega
                exact congrArg Nat.succ (ih.mp hle i' j' x y hx hy hpx hpy)
      · intro h
        rw [List.countP_cons]
        by_cases hpa : p a = true
        · have hzero : l.countP p = 0 := by
            rw [List.countP_eq_zero]
            intro x hxmem hpx
            obtain ⟨n, hn⟩ := List.mem_iff_getElem?.mp hxmem
            have := h 0 (n + 1) a x (by simp) (by simpa using hn) hpa hpx
            exact Nat.succ_ne_zero n this.symm
          rw [if_pos hpa, hzero]
        · have hle : l.countP p ≤ 1 := by
            apply (ih).mpr
            intro i j x y hx hy hpx hpy
            have := h (i + 1) (j + 1) x y (by simpa using hx)
              (by simpa using hy) hpx hpy
            omega
          rw [if_neg hpa]; omega

theorem atMostOneActive_iff (items : List AgendaItem) :
    atMostOneActive items ↔
      ∀ (i j : Nat) (x y : AgendaItem), items[i]? = some x →
        items[j]? = some y → x.isActive = true → y.isActive = true →
        i = j := by
  unfold atMostOneActive
  exact countP_le_one_iff _ _

theorem atMostOneActive_map_mono (f : AgendaItem → AgendaItem)
    (hf : ∀ it, (f it).isActive = true → it.isActive = true)
    {items : List AgendaItem} (h : atMostOneActive items) :
    atMostOneActive (items.map f) := by
  rw [atMostOneActive_iff]
  intro i j x y hx hy hpx hpy
  rw [List.getElem?_map, Option.map_eq_some'] at hx hy
  obtain ⟨a, ha, hax⟩ := hx
  obtain ⟨b, hb, hby⟩ := hy
  exact (atMostOneActive_iff items).mp h i j a b ha hb
    (hf a (hax ▸ hpx)) (hf b (hby ▸ hpy))

theorem atMostOneActive_of_none_active {items : List AgendaItem}
    (h : ∀ it ∈ items, it.isActive = false) : atMostOneActive items := by
  have hz : items.countP (fun it => it.isActive) = 0 :=
    List.countP_eq_zero.mpr (by intro a ha; simp [h a ha])
  rw [atMostOneActive, hz]
  omega

theorem pauseItem_active_mono (now : Int) (it : AgendaItem) :
    (pauseItem now it).isActive = true → it.isActive = true := by
  cases hst : it.startTime with
  | none => simp [pauseItem, hst]
  | some s =>
      simp only [pauseItem, hst]
      by_cases hc : (it.isActive && s != 0) = true
      · rw [if_pos hc]
        intro _
        exact (Bool.and_eq_true _ _).mp hc |>.1
      · rw [if_neg hc]
        intro h; simp at h

theorem editItem_active_eq (idv newName : String) (newEst : ℚ)
    (it : AgendaItem) :
    ((if it.id == idv then
        { it with name := newName, estimatedMinutes := newEst }
      else it) : AgendaItem).isActive = it.isActive := by
  by_cases h : it.id == idv <;> simp [h]

theorem startMeeting_preserves_atMostOne (now : Int)
    (items : List AgendaItem) (running : Bool)
    (h : atMostOneActive items) :
    atMostOneActive (startMeeting now items running).1 := by
  unfold startMeeting
  by_cases hg : 0 < items.length ∧ running = false
  · rw [if_pos hg]
    cases hf : jsFindIndex (fun it => !qTruthy it.actualMinutes) items with
    | none => exact h
    | some idx =>
        rw [atMostOneActive_iff]
        intro i j x y hx hy hpx hpy
        simp only [mapIdxFrom_getElem?, Nat.zero_add, Option.map_eq_some'] at hx hy
        obtain ⟨a, _, hax⟩ := hx
        obtain ⟨b, _, hby⟩ := hy
        have hi : (i == idx) = true := by rw [← hax] at hpx; exact hpx
        have hj : (j == idx) = true := by rw [← hby] at hpy; exact hpy
        rw [Nat.beq_eq_true_eq] at hi hj
        rw [hi, hj]
  · rw [if_neg hg]
    exact h

theorem pauseMeeting_preserves_atMostOne (now : Int)
    (items : List AgendaItem) (h : atMostOneActive items) :
    atMostOneActive (pauseMeeting now items).1 :=
  atMostOneActive_map_mono (pauseItem now) (pauseItem_active_mono now) h

theorem completeCurrentItem_preserves_atMostOne (now : Int) (running : Bool)
    (items : List AgendaItem) (h : atMostOneActive items) :
    atMostOneActive (completeCurrentItem now running items) := by
  unfold completeCurrentItem
  cases hf : jsFindIndex (fun it => it.isActive) items with
  | none => exact h
  | some aIdx =>
      obtain ⟨a0, ha0, ha0act⟩ := jsFindIndex_some_spec hf
      have key : ∀ (i : Nat) (x : AgendaItem),
          (mapIdxFrom (fun i it =>
            if i = aIdx then completeItem now it
            else if i = aIdx + 1 ∧ running = true then
              { it with isActive := true, startTime := some now }
            else it) 0 items)[i]? = some x →
          x.isActive = true → i = aIdx + 1 := by
        intro i x hx hpx
        rw [mapIdxFrom_getElem?, Nat.zero_add, Option.map_eq_some'] at hx
        obtain ⟨b, hb, hbx⟩ := hx
        by_cases hi : i = aIdx
        · exfalso
          rw [if_pos hi] at hbx
          rw [← hbx] at hpx
          simp [completeItem] at hpx
        · by_cases hi2 : i = aIdx + 1 ∧ running = true
          · exact hi2.1
          · exfalso
            rw [if_neg hi, if_neg hi2] at hbx
            rw [← hbx] at hpx
            exact hi ((atMostOneActive_iff items).mp h i aIdx b a0 hb ha0 hpx ha0act)
      rw [atMostOneActive_iff]
      intro i j x y hx hy hpx hpy
      rw [key i x hx hpx, key j y hy hpy]

theorem resetMeeting_preserves_atMostOne (items : List AgendaItem) :
    atMostOneActive (resetMeeting items).1 := by
  apply atMostOneActive_of_none_active
  intro it hit
  obtain ⟨a, _, rfl⟩ := List.mem_map.mp hit
  rfl

theorem addAgendaItem_preserves_atMostOne (idv namev : String) (est : ℚ)
    (items : List AgendaItem) (h : atMostOneActive items) :
    atMostOneActive (addAgendaItem idv namev est items) := by
  unfold addAgendaItem atMostOneActive
  rw [List.countP_append]
  have : List.countP (fun it => it.isActive) [newAgendaItem idv namev est] = 0 := by
    simp [List.countP, List.countP.go, newAgendaItem]
  rw [this]
  exact h

theorem editAgendaItem_preserves_atMostOne (idv newName : String)
    (newEst : ℚ) (items : List AgendaItem) (h : atMostOneActive items) :
    atMostOneActive (editAgendaItem idv newName newEst items) :=
  atMostOneActive_map_mono _
    (fun it hact => by rw [editItem_active_eq] at hact; exact hact) h

theorem deleteAgendaItem_preserves_atMostOne (idv : String)
    (items : List AgendaItem) (h : atMostOneActive items) :
    atMostOneActive (deleteAgendaItem idv items) :=
  le_trans (List.Sublist.countP_le _ (List.filter_sublist items)) h

theorem loadMeeting_preserves_atMostOne (m : Meeting) :
    atMostOneActive (loadMeeting m).1 := by
  apply atMostOneActive_of_none_active
  intro it hit
  obtain ⟨a, _, rfl⟩ := List.mem_map.mp hit
  rfl

/-- Claim C1: for every agenda item list in which at most one item is
active, each transition of the state machine (startMeeting, pauseMeeting,
completeCurrentItem, resetMeeting, addAgendaItem, editAgendaItem,
deleteAgendaItem, loadMeeting) produces a list in which at most one item is
active. -/
theorem C1_transitions_preserve_atMostOneActive
    (now : Int) (items : List AgendaItem) (running : Bool)
    (idv namev : String) (est : ℚ) (m : Meeting)
    (h : atMostOneActive items) :
    atMostOneActive (startMeeting now items running).1 ∧
    atMostOneActive (pauseMeeting now items).1 ∧
    atMostOneActive (completeCurrentItem now running items) ∧
    atMostOneActive (resetMeeting items).1 ∧
    atMostOneActive (addAgendaItem idv namev est items) ∧
    atMostOneActive (editAgendaItem idv namev est items) ∧
    atMostOneActive (deleteAgendaItem idv items) ∧
    atMostOneActive (loadMeeting m).1 :=
  ⟨startMeeting_preserves_atMostOne now items running h,
   pauseMeeting_preserves_atMostOne now items h,
   completeCurrentItem_preserves_atMostOne now running items h,
   resetMeeting_preserves_atMostOne items,
   addAgendaItem_preserves_atMostOne idv namev est items h,
   editAgendaItem_preserves_atMostOne idv namev est items h,
   deleteAgendaItem_preserves_atMostOne idv items h,
   loadMeeting_preserves_atMostOne m⟩

/-- Witness for C1 at a concrete two-item state with one active item. -/
theorem C1_witness :
    atMostOneActive [sampleActive, samplePending] ∧
    (atMostOneActive (startMeeting 2000 [sampleActive, samplePending] false).1 ∧
     atMostOneActive (pauseMeeting 2000 [sampleActive, samplePending]).1 ∧
     atMostOneActive (completeCurrentItem 2000 false [sampleActive, samplePending]) ∧
     atMostOneActive (resetMeeting [sampleActive, samplePending]).1 ∧
     atMostOneActive (addAgendaItem "d" "delta" 3 [sampleActive, samplePending]) ∧
     atMostOneActive (editAgendaItem "b" "beta2" 4 [sampleActive, samplePending]) ∧
     atMostOneActive (deleteAgendaItem "b" [sampleActive, samplePending]) ∧
     atMostOneActive (loadMeeting sampleMeetingRec).1) :=
  ⟨by decide,
   C1_transitions_preserve_atMostOneActive 2000 [sampleActive, samplePending]
     false "d" "delta" 3 sampleMeetingRec (by decide)⟩

/-- Claim C10: starting a meeting when every item already has a truthy
actualMinutes sets the running flag but leaves every agenda item unchanged:
no item becomes active and no startTime is assigned. -/
theorem C10_start_with_all_completed (now : Int) (items : List AgendaItem)
    (hne : items ≠ [])
    (hall : ∀ it ∈ items, qTruthy it.actualMinutes = true) :
    startMeeting now items false = (items, true) := by
  have hlen : 0 < items.length := List.length_pos.mpr hne
  have hfind : jsFindIndex (fun it => !qTruthy it.actualMinutes) items = none := by
    rw [jsFindIndex_eq_none_iff]
    intro x hx
    rw [hall x hx]
    rfl
  unfold startMeeting
  rw [if_pos ⟨hlen, rfl⟩, hfind]

/-- Witness for C10: a single completed item. -/
theorem C10_witness :
    startMeeting 2000 [sampleDone] false = ([sampleDone], true) :=
  C10_start_with_all_completed 2000 [sampleDone] (by decide) (by decide)

/-- Counterexample for C2: pausing a state whose active item has a truthy
startTime leaves that item with isActive still true, so not every item of
the resulting list has isActive = false. -/
theorem C2_counterexample :
    ((pauseMeeting 2000 [sampleActive]).1.all fun it => !it.isActive) = false := by
  decide

/-- Claim C2 (amended): pauseMeeting at time now clears the running flag;
the active item with non-zero startTime s banks elapsedTime + (now - s) and
loses its startTime but keeps isActive = true; every other item gets
isActive set to false. -/
theorem C2_pause_behavior (now : Int) (items : List AgendaItem)
    (i : Nat) (it : AgendaItem) (s : Int)
    (hit : items[i]? = some it) (hact : it.isActive = true)
    (hst : it.startTime = some s) (hs : s ≠ 0) :
    (pauseMeeting now items).2 = false ∧
    (pauseMeeting now items).1[i]? =
      some { it with elapsedTime := it.elapsedTime + (now - s),
                     startTime := none } ∧
    ((pauseMeeting now items).1[i]?).map AgendaItem.isActive = some true ∧
    (∀ (j : Nat) (jt : AgendaItem), items[j]? = some jt →
      (jt.isActive && tTruthy jt.startTime) = false →
      (pauseMeeting now items).1[j]? = some { jt with isActive := false }) := by
  have hcond : (it.isActive && s != 0) = true := by
    rw [hact]
    simp [hs]
  have hpi : pauseItem now it =
      { it with elapsedTime := it.elapsedTime + (now - s), startTime := none } := by
    simp only [pauseItem, hst]
    rw [if_pos hcond]
  have hmain : (pauseMeeting now items).1[i]? =
      some { it with elapsedTime := it.elapsedTime + (now - s),
                     startTime := none } := by
    show (items.map (pauseItem now))[i]? = _
    rw [List.getElem?_map, hit, Option.map_some', hpi]
  refine ⟨rfl, hmain, ?_, ?_⟩
  · rw [hmain, Option.map_some']
    exact congrArg some hact
  · intro j jt hjt hcondf
    show (items.map (pauseItem now))[j]? = _
    rw [List.getElem?_map, hjt, Option.map_some']
    refine congrArg some ?_
    cases hjst : jt.startTime with
    | none => simp only [pauseItem, hjst]
    | some t =>
        simp only [pauseItem, hjst]
        rw [if_neg]
        intro hc
        rw [hjst] at hcondf
        simp only [tTruthy] at hcondf
        rw [hc] at hcondf
        exact Bool.false_ne_true hcondf.symm

/-- Witness for C2 at a concrete two-item state. -/
theorem C2_witness :
    (pauseMeeting 2000 [sampleActive, samplePending]).1[0]? =
      some { sampleActive with
               elapsedTime := sampleActive.elapsedTime + (2000 - 1000),
               startTime := none } :=
  (C2_pause_behavior 2000 [sampleActive, samplePending] 0 sampleActive 1000
    rfl rfl rfl (by decide)).2.1

theorem resetMeeting_itemInv (items : List AgendaItem) :
    ∀ it ∈ (resetMeeting items).1, itemInv it := by
  intro it hit
  obtain ⟨a, _, rfl⟩ := List.mem_map.mp hit
  constructor
  · intro hx; simp [resetItem] at hx
  · intro hx; simp [resetItem] at hx

theorem loadMeeting_itemInv (m : Meeting) :
    ∀ it ∈ (loadMeeting m).1, itemInv it := by
  intro it hit
  obtain ⟨a, _, rfl⟩ := List.mem_map.mp hit
  constructor
  · intro hx; simp [loadItem] at hx
  · intro _; exact ⟨rfl, rfl⟩

theorem addAgendaItem_itemInv (idv namev : String) (est : ℚ)
    (items : List AgendaItem) (h : ∀ it ∈ items, itemInv it) :
    ∀ it ∈ addAgendaItem idv namev est items, itemInv it := by
  intro it hit
  rcases List.mem_append.mp hit with hmem | hmem
  · exact h it hmem
  · rcases List.mem_singleton.mp hmem with rfl
    constructor
    · intro hx; simp [newAgendaItem] at hx
    · intro hx; simp [newAgendaItem] at hx

theorem editAgendaItem_itemInv (idv newName : String) (newEst : ℚ)
    (items : List AgendaItem) (h : ∀ it ∈ items, itemInv it) :
    ∀ it ∈ editAgendaItem idv newName newEst items, itemInv it := by
  intro it hit
  obtain ⟨a, ha, rfl⟩ := List.mem_map.mp hit
  have hai := h a ha
  by_cases hid : (a.id == idv) = true
  · rw [if_pos hid]
    exact hai
  · rw [if_neg hid]
    exact hai

theorem deleteAgendaItem_itemInv (idv : String) (items : List AgendaItem)
    (h : ∀ it ∈ items, itemInv it) :
    ∀ it ∈ deleteAgendaItem idv items, itemInv it := by
  intro it hit
  exact h it (List.mem_of_mem_filter hit)

theorem pauseItem_completedInv (now : Int) (it : AgendaItem)
    (h : completedInv it) : completedInv (pauseItem now it) := by
  cases hst : it.startTime with
  | none =>
      simp only [pauseItem, hst]
      constructor
      · intro hx; simp at hx
      · intro _; exact ⟨rfl, rfl⟩
  | some s =>
      simp only [pauseItem, hst]
      by_cases hc : (it.isActive && s != 0) = true
      · rw [if_pos hc]
        have hactv : it.isActive = true := ((Bool.and_eq_true _ _).mp hc).1
        have hanone : it.actualMinutes = none := h.1 hactv
        constructor
        · intro _; exact hanone
        · intro hx
          have hx2 : it.actualMinutes.isSome = true := hx
          rw [hanone] at hx2
          simp at hx2
      · rw [if_neg hc]
        constructor
        · intro hx; simp at hx
        · intro hx
          have hx2 : it.actualMinutes.isSome = true := hx
          have hnone := (h.2 hx2).2
          rw [hnone] at hst
          simp at hst

theorem startMeeting_activeHasStart (now : Int) (items : List AgendaItem)
    (running : Bool) (h : ∀ it ∈ items, activeHasStart it) :
    ∀ it ∈ (startMeeting now items running).1, activeHasStart it := by
  unfold startMeeting
  by_cases hg : 0 < items.length ∧ running = false
  · rw [if_pos hg]
    cases hf : jsFindIndex (fun it => !qTruthy it.actualMinutes) items with
    | none => exact h
    | some idx =>
        intro it hit
        obtain ⟨i, x, _, rfl⟩ := mem_mapIdxFrom hit
        intro hax
        have hbeq : ((0 + i) == idx) = true := hax
        show (if (0 + i) == idx then some now else x.startTime).isSome = true
        rw [hbeq]
        rfl
  · rw [if_neg hg]
    exact h

theorem completeCurrentItem_activeHasStart (now : Int) (running : Bool)
    (items : List AgendaItem) (h : ∀ it ∈ items, activeHasStart it) :
    ∀ it ∈ completeCurrentItem now running items, activeHasStart it := by
  unfold completeCurrentItem
  cases hf : jsFindIndex (fun it => it.isActive) items with
  | none => exact h
  | some aIdx =>
      intro it hit
      obtain ⟨i, x, hx, rfl⟩ := mem_mapIdxFrom hit
      by_cases hi : 0 + i = aIdx
      · rw [if_pos hi]
        intro hax
        simp [completeItem] at hax
      · rw [if_neg hi]
        by_cases hi2 : 0 + i = aIdx + 1 ∧ running = true
        · rw [if_pos hi2]
          intro _
          rfl
        · rw [if_neg hi2]
          exact h x (memOfGetElem? hx)

/-- Counterexample for C3: starting from a single-item state satisfying both
invariant implications, pauseMeeting produces an item with isActive = true
and startTime undefined, violating the first implication. -/
theorem C3_counterexample :
    ¬ (∀ it ∈ (pauseMeeting 2000 [sampleActive]).1, itemInv it) := by decide

/-- Claim C3 (amended): resetMeeting, loadMeeting, addAgendaItem,
editAgendaItem and deleteAgendaItem preserve both implications of the item
invariant; pauseMeeting preserves the implications that do not constrain an
active item's startTime; startMeeting and completeCurrentItem preserve only
the implication that an active item has a startTime. -/
theorem C3_invariants_per_transition
    (now : Int) (items : List AgendaItem) (running : Bool)
    (idv namev : String) (est : ℚ) (m : Meeting) :
    (∀ it ∈ (resetMeeting items).1, itemInv it) ∧
    (∀ it ∈ (loadMeeting m).1, itemInv it) ∧
    ((∀ it ∈ items, itemInv it) →
      ∀ it ∈ addAgendaItem idv namev est items, itemInv it) ∧
    ((∀ it ∈ items, itemInv it) →
      ∀ it ∈ editAgendaItem idv namev est items, itemInv it) ∧
    ((∀ it ∈ items, itemInv it) →
      ∀ it ∈ deleteAgendaItem idv items, itemInv it) ∧
    ((∀ it ∈ items, completedInv it) →
      ∀ it ∈ (pauseMeeting now items).1, completedInv it) ∧
    ((∀ it ∈ items, activeHasStart it) →
      ∀ it ∈ (startMeeting now items running).1, activeHasStart it) ∧
    ((∀ it ∈ items, activeHasStart it) →
      ∀ it ∈ completeCurrentItem now running items, activeHasStart it) := by
  refine ⟨resetMeeting_itemInv items, loadMeeting_itemInv m,
    addAgendaItem_itemInv idv namev est items,
    editAgendaItem_itemInv idv namev est items,
    deleteAgendaItem_itemInv idv items, ?_,
    startMeeting_activeHasStart now items running,
    completeCurrentItem_activeHasStart now running items⟩
  intro hpre it hit
  obtain ⟨a, ha, rfl⟩ := List.mem_map.mp hit
  exact pauseItem_completedInv now a (hpre a ha)

/-- Witness for C3 at a concrete state satisfying the hypotheses. -/
theorem C3_witness :
    (∀ it ∈ [sampleActive, samplePending], itemInv it) ∧
    (∀ it ∈ [sampleActive, samplePending], completedInv it) ∧
    (∀ it ∈ [sampleActive, samplePending], activeHasStart it) ∧
    (∀ it ∈ (resetMeeting [sampleActive, samplePending]).1, itemInv it) ∧
    (∀ it ∈ (pauseMeeting 2000 [sampleActive, samplePending]).1, completedInv it) ∧
    (∀ it ∈ (startMeeting 2000 [sampleActive, samplePending] false).1,
      activeHasStart it) ∧
    (∀ it ∈ completeCurrentItem 2000 false [sampleActive, samplePending],
      activeHasStart it) := by
  have T := C3_invariants_per_transition 2000 [sampleActive, samplePending]
    false "d" "delta" 3 sampleMeetingRec
  exact ⟨by decide, by decide, by decide, T.1,
    T.2.2.2.2.2.1 (by decide),
    T.2.2.2.2.2.2.1 (by decide),
    T.2.2.2.2.2.2.2 (by decide)⟩

/-- Claim C4: restoring a persisted session at time T1 = now credits the
active item with a positive startTime T0 < now with
elapsedTime + (now - T0) and a fresh startTime = now; every item that is
not active is restored with all fields unchanged. -/
theorem C4_restore_session (now T0 : Int) (items : List AgendaItem)
    (i : Nat) (it : AgendaItem)
    (hit : items[i]? = some it) (hact : it.isActive = true)
    (hst : it.startTime = some T0) (hpos : 0 < T0) (hlt : T0 < now) :
    (restoreSession now items)[i]? =
      some { it with elapsedTime := it.elapsedTime + (now - T0),
                     startTime := some now } ∧
    (∀ (j : Nat) (jt : AgendaItem), items[j]? = some jt →
      jt.isActive = false → (restoreSession now items)[j]? = some jt) := by
  constructor
  · show (items.map (restoreItem now))[i]? = _
    rw [List.getElem?_map, hit, Option.map_some']
    refine congrArg some ?_
    simp only [restoreItem, hst]
    rw [if_pos]
    rw [hact]
    simp only [Bool.true_and, bne_iff_ne, ne_eq]
    omega
  · intro j jt hjt hj
    show (items.map (restoreItem now))[j]? = _
    rw [List.getElem?_map, hjt, Option.map_some']
    refine congrArg some ?_
    cases hjst : jt.startTime with
    | none => simp only [restoreItem, hjst]
    | some t =>
        simp only [restoreItem, hjst]
        rw [if_neg]
        intro hcc
        rw [hj] at hcc
        simp at hcc

/-- Witness for C4 at a concrete persisted session. -/
theorem C4_witness :
    (restoreSession 2000 [sampleActive, samplePending])[0]? =
      some { sampleActive with
               elapsedTime := sampleActive.elapsedTime + (2000 - 1000),
               startTime := some 2000 } ∧
    (restoreSession 2000 [sampleActive, samplePending])[1]? =
      some samplePending := by
  have T := C4_restore_session 2000 1000 [sampleActive, samplePending] 0
    sampleActive rfl rfl rfl (by decide) (by decide)
  exact ⟨T.1, T.2 1 samplePending rfl rfl⟩

/-- Claim C5: completeCurrentItem on the active item with a positive
startTime s records actualMinutes = round((elapsedTime + (now - s)) / 60000
* 10) / 10 and clears isActive and startTime; in particular, completing an
item with startTime = now - 125000 and elapsedTime = 0 yields
actualMinutes = 2.1. -/
theorem C5_complete_rounding (now : Int) (running : Bool)
    (items : List AgendaItem) (i : Nat) (it : AgendaItem) (s : Int)
    (hfind : jsFindIndex (fun x => x.isActive) items = some i)
    (hit : items[i]? = some it) (hst : it.startTime = some s)
    (hpos : 0 < s) :
    (completeCurrentItem now running items)[i]? =
      some { it with
               isActive := false
               actualMinutes := some
                 ((jsRound (((it.elapsedTime + (now - s) : Int) : ℚ) / 60000 * 10) : ℚ) / 10)
               startTime := none } ∧
    (∀ (idv namev : String) (est : ℚ) (now2 : Int) (run2 : Bool),
      125000 < now2 →
      completeCurrentItem now2 run2
        [⟨idv, namev, est, none, true, some (now2 - 125000), 0⟩] =
        [⟨idv, namev, est, some (21/10), false, none, 0⟩]) := by
  constructor
  · unfold completeCurrentItem
    rw [hfind, mapIdxFrom_getElem?, hit, Option.map_some']
    refine congrArg some ?_
    rw [if_pos (by omega : 0 + i = i)]
    simp only [completeItem, completeElapsed, hst]
    rw [if_pos (by simp only [bne_iff_ne, ne_eq]; omega)]
  · intro idv namev est now2 run2 hlt
    have hfind1 : jsFindIndex (fun x => x.isActive)
        [(⟨idv, namev, est, none, true, some (now2 - 125000), 0⟩ : AgendaItem)] =
        some 0 := rfl
    unfold completeCurrentItem
    rw [hfind1]
    simp only [mapIdxFrom]
    rw [if_pos trivial]
    simp only [completeItem, completeElapsed]
    rw [if_pos (by simp only [bne_iff_ne, ne_eq]; omega)]
    have harith : (0 : Int) + (now2 - (now2 - 125000)) = 125000 := by omega
    rw [harith]
    have hround : ((jsRound (((125000 : Int) : ℚ) / 60000 * 10) : ℚ) / 10) =
        21 / 10 := by
      have h1 : (((125000 : Int) : ℚ) / 60000 * 10) = 125 / 6 := by norm_num
      rw [h1]
      have h2 : jsRound ((125 : ℚ) / 6) = 21 := by
        unfold jsRound
        rw [Int.floor_eq_iff]
        constructor <;> norm_num
      rw [h2]
      norm_num
    rw [hround]

/-- Witness for C5 at a concrete state. -/
theorem C5_witness :
    (completeCurrentItem 2000 false [sampleActive])[0]? =
      some { sampleActive with
               isActive := false
               actualMinutes := some
                 ((jsRound (((sampleActive.elapsedTime + (2000 - 1000) : Int) : ℚ) / 60000 * 10) : ℚ) / 10)
               startTime := none } ∧
    completeCurrentItem 1000000 true
      [⟨"x", "y", 5, none, true, some (1000000 - 125000), 0⟩] =
      [⟨"x", "y", 5, some (21/10), false, none, 0⟩] := by
  have T := C5_complete_rounding 2000 false [sampleActive] 0 sampleActive
    1000 rfl rfl rfl (by decide)
  exact ⟨T.1, T.2 "x" "y" 5 1000000 true (by decide)⟩

theorem take_append_take (A B : List Meeting) (n : Nat) :
    (A ++ B.take n).take n = (A ++ B).take n := by
  rw [List.take_append_eq_append_take, List.take_append_eq_append_take,
    List.take_take]
  congr 1
  rw [min_eq_left (Nat.sub_le n A.length)]

theorem runSaves_spec (saves : List (String × String × List AgendaItem))
    (history : List Meeting) (hh : history.length ≤ 10)
    (hv : ∀ sv ∈ saves, 0 < sv.2.2.length ∧
      sv.2.2.any (fun it => qTruthy it.actualMinutes) = true) :
    runSaves saves history =
      ((saves.reverse.map (fun sv => mkMeeting sv.1 sv.2.1 sv.2.2)) ++
        history).take 10 := by
  induction saves generalizing history with
  | nil =>
      simp only [runSaves, List.foldl_nil, List.reverse_nil, List.map_nil,
        List.nil_append]
      rw [List.take_of_length_le hh]
  | cons sv saves ih =>
      have hsv := hv sv (by simp)
      have hsave : saveMeeting sv.1 sv.2.1 sv.2.2 history =
          (mkMeeting sv.1 sv.2.1 sv.2.2 :: history).take 10 := by
        unfold saveMeeting
        rw [if_pos hsv]
      have hlen2 : ((mkMeeting sv.1 sv.2.1 sv.2.2 :: history).take 10).length ≤ 10 := by
        rw [List.length_take]
        exact min_le_left _ _
      have hrec := ih ((mkMeeting sv.1 sv.2.1 sv.2.2 :: history).take 10) hlen2
        (fun sv2 hsv2 => hv sv2 (by simp [hsv2]))
      show runSaves saves (saveMeeting sv.1 sv.2.1 sv.2.2 history) = _
      rw [hsave, hrec, take_append_take]
      congr 1
      rw [List.reverse_cons, List.map_append]
      simp [List.append_assoc]

/-- Counterexample for C6: an item whose actualMinutes is defined but equal
to 0 is dropped from the saved Meeting, so the Meeting is not built from
exactly the items with actualMinutes set. -/
theorem C6_counterexample :
    (saveMeeting "i" "d" [itemZero, sampleDone] []).map Meeting.agendaItems =
      [[sampleDone]] ∧
    [itemZero, sampleDone].filter (fun it => it.actualMinutes.isSome) =
      [itemZero, sampleDone] ∧
    ([sampleDone] : List AgendaItem) ≠ [itemZero, sampleDone] := by decide

/-- Claim C6 (amended): saveMeeting prepends the Meeting built from exactly
the items with a truthy (non-zero) actualMinutes and truncates to the 10
most recent; 12 successful saves into an empty history leave 10 meetings,
the first from the 12th save and the last from the 3rd save. -/
theorem C6_save_history (idv datev : String) (items : List AgendaItem)
    (history : List Meeting)
    (hv : 0 < items.length ∧
      items.any (fun it => qTruthy it.actualMinutes) = true)
    (saves : List (String × String × List AgendaItem))
    (hlen : saves.length = 12)
    (hvs : ∀ sv ∈ saves, 0 < sv.2.2.length ∧
      sv.2.2.any (fun it => qTruthy it.actualMinutes) = true) :
    saveMeeting idv datev items history =
      (mkMeeting idv datev items :: history).take 10 ∧
    (mkMeeting idv datev items).agendaItems =
      items.filter (fun it => qTruthy it.actualMinutes) ∧
    (runSaves saves []).length = 10 ∧
    (runSaves saves [])[0]? =
      (saves[11]?).map (fun sv => mkMeeting sv.1 sv.2.1 sv.2.2) ∧
    (runSaves saves [])[9]? =
      (saves[2]?).map (fun sv => mkMeeting sv.1 sv.2.1 sv.2.2) := by
  have hrun := runSaves_spec saves [] (by simp) hvs
  rw [List.append_nil] at hrun
  have hrevlen : (saves.reverse.map
      (fun sv => mkMeeting sv.1 sv.2.1 sv.2.2)).length = 12 := by
    rw [List.length_map, List.length_reverse, hlen]
  refine ⟨by unfold saveMeeting; rw [if_pos hv], rfl, ?_, ?_, ?_⟩
  · rw [hrun, List.length_take, hrevlen]
    decide
  · rw [hrun, List.getElem?_take, if_pos (by omega), List.getElem?_map,
      List.getElem?_reverse (by omega), hlen]
  · rw [hrun, List.getElem?_take, if_pos (by omega), List.getElem?_map,
      List.getElem?_reverse (by omega), hlen]

/-- Witness for C6: 12 concrete successful saves. -/
theorem C6_witness :
    (runSaves sampleSaves []).length = 10 ∧
    (runSaves sampleSaves [])[0]? =
      (sampleSaves[11]?).map (fun sv => mkMeeting sv.1 sv.2.1 sv.2.2) ∧
    (runSaves sampleSaves [])[9]? =
      (sampleSaves[2]?).map (fun sv => mkMeeting sv.1 sv.2.1 sv.2.2) := by
  have T := C6_save_history "i" "d" [sampleDone] [] (by decide) sampleSaves
    (by decide) (by decide)
  exact ⟨T.2.2.1, T.2.2.2.1, T.2.2.2.2⟩

theorem foldl_contribution (now : Int) (items : List AgendaItem) (a : ℚ) :
    items.foldl (fun sum it =>
      if qTruthy it.actualMinutes then sum + it.actualMinutes.getD 0 * 60000
      else sum + (getCurrentElapsed now it : ℚ)) a =
    a + (items.map (itemContribution now)).sum := by
  induction items generalizing a with
  | nil => simp
  | cons x xs ih =>
      rw [List.foldl_cons, ih, List.map_cons, List.sum_cons]
      by_cases h : qTruthy x.actualMinutes = true
      · rw [if_pos h]
        unfold itemContribution
        rw [if_pos h]
        ring
      · rw [if_neg h]
        unfold itemContribution
        rw [if_neg h]
        ring

/-- Counterexample for C7: an item whose actualMinutes is defined but 0
contributes its live elapsed time (2000 ms), not actualMinutes * 60000 = 0,
so totalElapsed differs from the sum the claim describes. -/
theorem C7_counterexample :
    totalElapsed 0 [itemZero] = 2000 ∧
    totalElapsedClaim 0 [itemZero] = 0 ∧
    ((2000 : ℚ) ≠ 0) := by
  refine ⟨?_, ?_, by norm_num⟩
  · show List.foldl _ 0 [itemZero] = 2000
    simp [totalElapsed, qTruthy, itemZero, getCurrentElapsed]
  · simp [totalElapsedClaim, itemZero]

/-- Claim C7 (amended): totalElapsed(items, now) is the sum over items of
actualMinutes * 60000 when actualMinutes is defined and non-zero, else
currentElapsed(item, now); the contribution of an item with a truthy
actualMinutes is independent of now. -/
theorem C7_total_elapsed (now now2 : Int) (items : List AgendaItem)
    (it : AgendaItem) :
    totalElapsed now items = (items.map (itemContribution now)).sum ∧
    (qTruthy it.actualMinutes = true →
      itemContribution now it = itemContribution now2 it) := by
  constructor
  · unfold totalElapsed
    rw [foldl_contribution]
    ring
  · intro h
    unfold itemContribution
    rw [if_pos h, if_pos h]

/-- Witness for C7. -/
theorem C7_witness :
    qTruthy sampleDone.actualMinutes = true ∧
    itemContribution 0 sampleDone = itemContribution 999 sampleDone :=
  ⟨by decide, (C7_total_elapsed 0 999 [] sampleDone).2 (by decide)⟩

/-- Claim C8 evaluated at a failing input: the active item starts at s =
1000 with no banked time; the tab hides at t1 = 2000 (banking 1000 ms and
re-basing to 2000) and shows again at t2 = 5000 (re-basing to 5000 without
banking), so the accounted time after the show event is 1000 ms while the
claim requires accountedTime(s) + (t2 - s) = 4000 ms: the 3000 ms spent
hidden are silently dropped, contradicting the hook's own documentation
that elapsed time continues to accumulate while the tab is hidden. -/
theorem C8_background_time_lost :
    (handleVisibilityChange false true 5000
      (handleVisibilityChange true true 2000 [cexVisItem])).map
        (accountedTime 5000) = [1000] ∧
    accountedTime 1000 cexVisItem + (5000 - 1000) = 4000 ∧
    ((1000 : Int) ≠ 4000) := by decide

/-- Counterexample for C9: the raw deleteAgendaItem transition removes an
item with isActive = true instead of being a no-op. -/
theorem C9_counterexample :
    deleteAgendaItem "a" [sampleActive] = [] ∧
    sampleActive.isActive = true := by decide

/-- Claim C9 (amended): deleteAgendaItem itself removes every item with the
given id regardless of state; the delete protection lives in the UI button
gating of MeetingProgress, which is disabled exactly when the item is
active, has elapsedTime > 0, or has actualMinutes defined, so the UI-level
delete is a no-op on such items and removes only untouched Pending items. -/
theorem C9_delete_policy (items : List AgendaItem) (i : Nat)
    (it : AgendaItem) (hit : items[i]? = some it) :
    (deleteAgendaItem it.id items =
      items.filter (fun x => x.id != it.id)) ∧
    ((it.isActive = true ∨ 0 < it.elapsedTime ∨
        it.actualMinutes.isSome = true) →
      uiDeleteAgendaItem i items = items) ∧
    (it.isActive = false → it.elapsedTime ≤ 0 → it.actualMinutes = none →
      uiDeleteAgendaItem i items =
        items.filter (fun x => x.id != it.id)) := by
  refine ⟨rfl, ?_, ?_⟩
  · intro hprot
    unfold uiDeleteAgendaItem
    rw [hit]
    have hdis : deleteDisabled it = true := by
      unfold deleteDisabled
      rcases hprot with h | h | h
      · simp [h]
      · simp [h]
      · simp [h]
    show (if deleteDisabled it = true then items
          else deleteAgendaItem it.id items) = items
    rw [if_pos hdis]
  · intro h1 h2 h3
    unfold uiDeleteAgendaItem
    rw [hit]
    have hdis : deleteDisabled it = false := by
      unfold deleteDisabled
      rw [h1, h3]
      simp
      omega
    show (if deleteDisabled it = true then items
          else deleteAgendaItem it.id items) =
        List.filter (fun x => x.id != it.id) items
    rw [if_neg (by simp [hdis])]
    rfl

/-- Witness for C9: the protected active item survives the guarded delete;
an untouched Pending item is removed. -/
theorem C9_witness :
    uiDeleteAgendaItem 0 [sampleActive, samplePending] =
      [sampleActive, samplePending] ∧
    uiDeleteAgendaItem 1 [sampleActive, samplePending] =
      [sampleActive, samplePending].filter
        (fun x => x.id != samplePending.id) := by
  have T1 := C9_delete_policy [sampleActive, samplePending] 0 sampleActive rfl
  have T2 := C9_delete_policy [sampleActive, samplePending] 1 samplePending rfl
  exact ⟨T1.2.1 (Or.inl rfl), T2.2.2 rfl (by decide) rfl⟩
